import Mathlib

/-!
Shallow embedding of the supervision core of the SproutSMP repository
(`ProcessManager` in `src/scripts/install-deps.js`, plus the HTTP route
handlers that drive it).  Pure computations (argument building, config
defaulting) are translated as Lean functions; the stateful operations on
the `processes` map are translated as explicit state-passing functions
over an association-list registry.  Platform- and runtime-dependent
behaviour (whether a pid is alive, whether `spawn` fails synchronously or
via the asynchronous `error` event, whether a `stdin` write succeeds,
when the child's `close` event fires) is passed in as explicit oracle
parameters, so every definition stays executable.
-/

deriving instance DecidableEq for Except

namespace SproutSMP

/-- A launch configuration record as received by `startMinecraftServer`.
`none` models a field absent from the JavaScript object (`undefined`),
which triggers the destructuring default. -/
structure LaunchConfig where
  jarFile : Option String
  minMemory : Option String
  maxMemory : Option String
  jvmArgs : Option (List String)
  serverArgs : Option (List String)
  workingDir : Option String
  useAikarFlags : Option Bool
deriving DecidableEq, Repr

/-- The configuration record with every destructuring default applied. -/
structure ResolvedConfig where
  jarFile : String
  minMemory : String
  maxMemory : String
  jvmArgs : List String
  serverArgs : List String
  workingDir : String
  useAikarFlags : Bool
deriving DecidableEq, Repr

/-- Model of `path.join(__dirname, '..', 'minecraft-server')`, the default
working directory in the destructuring of `startMinecraftServer`. -/
def defaultWorkingDir : String := "../minecraft-server"

/-- Model of `path.join(__dirname, '..', 'logs')`, the `logDir` field set in
the `ProcessManager` constructor. -/
def logDir : String := "../logs"

/-- Model of `path.join a b` for the two-argument joins the code performs. -/
def pathJoin (a b : String) : String := a ++ "/" ++ b

/-- The destructuring defaults of `startMinecraftServer` (source lines
423-431): `jarFile = 'server.jar'`, `minMemory = '1G'`, `maxMemory = '2G'`,
`jvmArgs = []`, `serverArgs = []`, `workingDir = path.join(__dirname, '..',
'minecraft-server')`, `useAikarFlags = false`.  A destructuring default in
JavaScript fires exactly when the property is `undefined`. -/
def resolveConfig (c : LaunchConfig) : ResolvedConfig :=
  { jarFile := c.jarFile.getD "server.jar"
    minMemory := c.minMemory.getD "1G"
    maxMemory := c.maxMemory.getD "2G"
    jvmArgs := c.jvmArgs.getD []
    serverArgs := c.serverArgs.getD []
    workingDir := c.workingDir.getD defaultWorkingDir
    useAikarFlags := c.useAikarFlags.getD false }

/-- The empty configuration object `{}`. -/
def emptyConfig : LaunchConfig :=
  ⟨none, none, none, none, none, none, none⟩

/-- The fixed block of garbage-collector tuning flags pushed when
`useAikarFlags` is set (source lines 447-466). -/
def aikarFlags : List String :=
  [ "-XX:+UseG1GC",
    "-XX:+ParallelRefProcEnabled",
    "-XX:MaxGCPauseMillis=200",
    "-XX:+UnlockExperimentalVMOptions",
    "-XX:+DisableExplicitGC",
    "-XX:+AlwaysPreTouch",
    "-XX:G1NewSizePercent=30",
    "-XX:G1MaxNewSizePercent=40",
    "-XX:G1HeapRegionSize=8M",
    "-XX:G1ReservePercent=20",
    "-XX:G1HeapWastePercent=5",
    "-XX:G1MixedGCCountTarget=4",
    "-XX:InitiatingHeapOccupancyPercent=15",
    "-XX:G1MixedGCLiveThresholdPercent=90",
    "-XX:G1RSetUpdatingPauseTimePercent=5",
    "-XX:SurvivorRatio=32",
    "-XX:+PerfDisableSharedMem",
    "-XX:MaxTenuringThreshold=1" ]

/-- The JVM argument vector built by `startMinecraftServer` (source lines
439-474), mirroring the sequence of `args.push` statements: memory
settings, the optional Aikar block, custom JVM arguments, the jar
invocation, then the server arguments. -/
def buildArgs (r : ResolvedConfig) : List String :=
  let args : List String := []
  let args := args ++ ["-Xms" ++ r.minMemory, "-Xmx" ++ r.maxMemory]
  let args := if r.useAikarFlags then args ++ aikarFlags else args
  let args := args ++ r.jvmArgs
  let args := args ++ ["-jar", r.jarFile, "--nogui"]
  args ++ r.serverArgs

/-- A filesystem snapshot: the list of paths for which `fs.existsSync`
returns true. -/
abbrev Fs := List String

/-- Model of `fs.existsSync`. -/
def fsExists (fs : Fs) (p : String) : Bool := fs.contains p

/-- The information stored in the `processes` map for a spawned child
(source lines 494-501).  `pid` is `child.pid`, which is `undefined`
(`none`) when the OS-level spawn failed asynchronously. -/
structure ProcessInfo where
  pid : Option Nat
  startTime : Nat
  config : LaunchConfig
  logFile : String
  errorLogFile : String
deriving DecidableEq, Repr

/-- The `processes` map of the `ProcessManager`, as an association list
from process name to `ProcessInfo`. -/
abbrev Registry := List (String × ProcessInfo)

/-- Model of `this.processes.get(name)`. -/
def rget (reg : Registry) (name : String) : Option ProcessInfo :=
  reg.lookup name

/-- Model of `this.processes.set(name, info)`: replaces any existing
binding for `name`. -/
def rset (reg : Registry) (name : String) (info : ProcessInfo) : Registry :=
  (name, info) :: reg.filter (fun e => e.1 ≠ name)

/-- Model of `this.processes.delete(name)`. -/
def rdelete (reg : Registry) (name : String) : Registry :=
  reg.filter (fun e => e.1 ≠ name)

/-- Outcome of the `spawn('java', args, spawnOptions)` call, a runtime
oracle.  Node.js delivers OS-level spawn failures (ENOENT, EACCES,
resource exhaustion) through the child's asynchronous `error` event while
`spawn` itself returns a `ChildProcess` whose `pid` is `undefined`; a
synchronous throw from `spawn` happens only for malformed invocations. -/
inductive SpawnOutcome where
  | ok (pid : Nat)
  | syncError
  | asyncError
deriving DecidableEq, Repr

/-- The value resolved by a successful `startMinecraftServer` call
(source lines 543-548). -/
structure StartResult where
  pid : Option Nat
  startTime : Nat
  logFile : String
  errorLogFile : String
deriving DecidableEq, Repr

/-- The errors `startMinecraftServer` can throw: the jar-validation throw
(line 436) and the catch-block rethrow (line 551). -/
inductive StartError where
  | jarNotFound (path : String)
  | startFailed
deriving DecidableEq, Repr

/-- Everything observable about one `startMinecraftServer` call: the
registry after the synchronous body has run, whether `spawn` was invoked
(and with which argument vector), and the value returned or error thrown
to the caller. -/
structure StartOutcome where
  registry : Registry
  spawnedArgs : Option (List String)
  result : Except StartError StartResult
deriving DecidableEq, Repr

/-- Model of `ProcessManager.startMinecraftServer` (source lines 422-553).
Applies the destructuring defaults, validates that `workingDir/jarFile`
exists (throwing before anything is registered), builds the argument
vector, then spawns.  A synchronous throw from `spawn` is caught and
rethrown wrapped, with nothing registered.  Otherwise the body registers
a `ProcessInfo` under `'minecraft-server'` and returns success — also when
the spawn failed at OS level, since that failure only surfaces later via
the asynchronous `error` event (whose handler, lines 532-536, merely logs)
while `child.pid` is `undefined`. -/
def startMinecraftServer (reg : Registry) (cfg : LaunchConfig) (fs : Fs)
    (now : Nat) (ts : String) (sp : SpawnOutcome) : StartOutcome :=
  let r := resolveConfig cfg
  let jarPath := pathJoin r.workingDir r.jarFile
  if fsExists fs jarPath = false then
    ⟨reg, none, .error (.jarNotFound jarPath)⟩
  else
    let args := buildArgs r
    let logFile := pathJoin logDir ("minecraft-server-" ++ ts ++ ".log")
    let errorLogFile := pathJoin logDir ("minecraft-server-error-" ++ ts ++ ".log")
    match sp with
    | .syncError => ⟨reg, some args, .error .startFailed⟩
    | .ok pid =>
        let info : ProcessInfo := ⟨some pid, now, cfg, logFile, errorLogFile⟩
        ⟨rset reg "minecraft-server" info, some args,
          .ok ⟨some pid, now, logFile, errorLogFile⟩⟩
    | .asyncError =>
        let info : ProcessInfo := ⟨none, now, cfg, logFile, errorLogFile⟩
        ⟨rset reg "minecraft-server" info, some args,
          .ok ⟨none, now, logFile, errorLogFile⟩⟩

/-- Model of `ProcessManager.isProcessRunning` (source lines 674-688),
with the platform probe abstracted as the `alive` oracle.  When `pid` is
`undefined` the Unix probe `process.kill(undefined, 0)` throws and the
Windows `tasklist` filter matches nothing, so both platforms yield
`false`. -/
def isProcessRunning (alive : Nat → Bool) (pid : Option Nat) : Bool :=
  match pid with
  | none => false
  | some p => alive p

/-- The payload returned by `getProcessStatus` (source lines 649-669):
either the bare `{ running: false }` for an unknown name, or the full
record for a registered one. -/
inductive StatusPayload where
  | notFound
  | found (running : Bool) (pid : Option Nat) (startTime : Nat)
      (uptime : Int) (logFile : String) (errorLogFile : String)
deriving DecidableEq, Repr

/-- The `running` field of a status payload. -/
def StatusPayload.running : StatusPayload → Bool
  | .notFound => false
  | .found r _ _ _ _ _ => r

/-- Model of `ProcessManager.getProcessStatus` (source lines 649-669).
Returns the payload together with the registry after the call; the
function body contains no mutation of `this.processes`, so the registry
is returned unchanged. -/
def getProcessStatus (reg : Registry) (alive : Nat → Bool) (name : String)
    (now : Nat) : StatusPayload × Registry :=
  match rget reg name with
  | none => (.notFound, reg)
  | some info =>
      (.found (isProcessRunning alive info.pid) info.pid info.startTime
        ((now : Int) - (info.startTime : Int)) info.logFile info.errorLogFile,
       reg)

/-- Model of `ProcessManager.cleanup` (source lines 704-710): removes
every entry whose pid the liveness probe reports dead.  This method is
declared in the source but never invoked by any route. -/
def cleanup (reg : Registry) (alive : Nat → Bool) : Registry :=
  reg.filter (fun e => isProcessRunning alive e.2.pid)

/-- Errors of the `/api/server/start` route handler: the 400 response
`'Server is already running'`, or the 500 response wrapping an error
thrown by `startMinecraftServer`. -/
inductive ApiStartError where
  | alreadyRunning
  | internal (e : StartError)
deriving DecidableEq, Repr

/-- Observable outcome of one `/api/server/start` request. -/
structure ApiStartOutcome where
  registry : Registry
  spawnedArgs : Option (List String)
  result : Except ApiStartError StartResult
deriving DecidableEq, Repr

/-- Model of the `/api/server/start` route handler (source lines
1028-1061): checks `getProcessStatus('minecraft-server').running`, answers
400 without touching the manager when it is true, and otherwise calls
`startMinecraftServer` with the stored config and `workingDir` overridden
to `CONFIG.serverPath`. -/
def apiServerStart (reg : Registry) (alive : Nat → Bool)
    (serverConfig : LaunchConfig) (serverPath : String) (fs : Fs)
    (now : Nat) (ts : String) (sp : SpawnOutcome) : ApiStartOutcome :=
  let status := (getProcessStatus reg alive "minecraft-server" now).1
  if status.running then
    ⟨reg, none, .error .alreadyRunning⟩
  else
    let o := startMinecraftServer reg
      { serverConfig with workingDir := some serverPath } fs now ts sp
    ⟨o.registry, o.spawnedArgs, o.result.mapError .internal⟩

/-- When during a `stopProcess` call a signal is sent: while issuing the
shutdown request, or from the timeout expiry callback. -/
inductive StopPhase where
  | onRequest
  | onTimeout
deriving DecidableEq, Repr

/-- Runtime oracle for the child during a `stopProcess` call: whether the
`stdin.write('stop\n')` call succeeds, and after how many milliseconds (if
ever) the child's `close` event fires. -/
structure ChildStopBehavior where
  stdinWriteOk : Bool
  closeAfter : Option Nat
  exitCode : Int
  exitSignal : Option String
deriving DecidableEq, Repr

/-- The value a successful `stopProcess` resolves with. -/
structure StopResult where
  code : Int
  signal : Option String
deriving DecidableEq, Repr

/-- The errors `stopProcess` can reject with. -/
inductive StopError where
  | notFound (name : String)
  | stopTimedOut (name : String) (timeout : Nat)
deriving DecidableEq, Repr

/-- Observable outcome of one `stopProcess` call: every
forced-termination signal sent, tagged with the phase that sent it, and
the settled promise. -/
structure StopOutcome where
  signalsSent : List (StopPhase × String)
  result : Except StopError StopResult
deriving DecidableEq, Repr

/-- Model of `ProcessManager.stopProcess` (source lines 558-589).  For an
unknown name it throws.  Otherwise it arms a timer that only rejects with
the timeout error, attaches a `close` listener that resolves, and issues
the shutdown request: for `'minecraft-server'` it writes `stop\n` to
stdin, falling back to `killProcess(name, 'SIGTERM')` if the write
throws; for any other name it sends SIGTERM directly.  The promise
resolves iff the `close` event fires strictly before the timer. -/
def stopProcess (reg : Registry) (name : String) (timeout : Nat)
    (b : ChildStopBehavior) : StopOutcome :=
  match rget reg name with
  | none => ⟨[], .error (.notFound name)⟩
  | some _ =>
      let requestSignals : List (StopPhase × String) :=
        if name = "minecraft-server" then
          if b.stdinWriteOk then [] else [(.onRequest, "SIGTERM")]
        else [(.onRequest, "SIGTERM")]
      match b.closeAfter with
      | some t =>
          if t < timeout then
            ⟨requestSignals, .ok ⟨b.exitCode, b.exitSignal⟩⟩
          else
            ⟨requestSignals, .error (.stopTimedOut name timeout)⟩
      | none => ⟨requestSignals, .error (.stopTimedOut name timeout)⟩

/-- Whether a termination signal reaches only the one process or its
whole process group. -/
inductive KillScope where
  | singleProcess
  | processGroup
deriving DecidableEq, Repr

/-- One delivered termination signal. -/
structure SigDelivery where
  scope : KillScope
  signal : String
deriving DecidableEq, Repr

/-- Model of `ProcessManager.killProcess` (source lines 594-624).  For an
unknown name it throws.  On Windows, `SIGKILL` is delivered through
`taskkill /F /PID pid` — the `/T` tree flag is not passed, so only the one
pid is targeted — and any other signal goes through `child.kill(signal)`,
also single-process.  On Unix, `process.kill(-pid, signal)` targets the
whole process group, guarded by `if (child.pid)`, so nothing is sent when
`pid` is `undefined`.  The function returns as soon as the signals are
issued, without waiting for the exit observer. -/
def killProcess (isWindows : Bool) (reg : Registry) (name : String)
    (signal : String) : Except String (List SigDelivery) :=
  match rget reg name with
  | none => .error ("Process " ++ name ++ " not found")
  | some info =>
      if isWindows then
        if signal = "SIGKILL" then
          .ok [⟨.singleProcess, "SIGKILL"⟩]
        else
          .ok [⟨.singleProcess, signal⟩]
      else
        match info.pid with
        | some _ => .ok [⟨.processGroup, signal⟩]
        | none => .ok []

/-- Model of the `detached` spawn option (source line 485): a new process
group is created for the child exactly on non-Windows platforms. -/
def spawnDetached (isWindows : Bool) : Bool := !isWindows

/-- Observable outcome of one `sendCommand` call: the bytes written to
the child's stdin, if any, and the value returned or error thrown. -/
structure SendOutcome where
  written : Option String
  result : Except String Bool
deriving DecidableEq, Repr

/-- Model of `ProcessManager.sendCommand` (source lines 629-644).  Throws
for an unknown name; otherwise writes `command + '\n'` to the child's
stdin and returns `true`, or returns `false` when the write throws.  The
`writeOk` oracle abstracts the runtime state of the stdin stream. -/
def sendCommand (reg : Registry) (name command : String)
    (writeOk : Bool) : SendOutcome :=
  match rget reg name with
  | none => ⟨none, .error ("Process " ++ name ++ " not found")⟩
  | some _ =>
      if writeOk then ⟨some (command ++ "\n"), .ok true⟩
      else ⟨none, .ok false⟩

/-- The server-level lifecycle state held in the `serverStatus` variable
of the HTTP layer (source lines 913, 1035, 1043, 1071, 1076, 1144). -/
inductive ServerStatus where
  | stopped
  | starting
  | running
  | stopping
deriving DecidableEq, Repr

/-- The shared mutable state visible to the route handlers: the manager's
`processes` map and the `serverStatus` lifecycle variable. -/
structure SysState where
  processes : Registry
  serverStatus : ServerStatus
deriving DecidableEq, Repr

/-- `sendCommand` as invoked on the whole system state: the manager code
reads only the `processes` map, never the lifecycle variable. -/
def sendCommandSys (s : SysState) (name command : String)
    (writeOk : Bool) : SendOutcome :=
  sendCommand s.processes name command writeOk

/-- The fixed allow-list of configuration files `createBackup` copies
(source lines 814-820). -/
def filesToBackup : List String :=
  [ "server.properties",
    "whitelist.json",
    "ops.json",
    "banned-players.json",
    "banned-ips.json" ]

/-- Model of the JavaScript `config.workingDir || default` expression in
`createBackup` (source line 800): `undefined` and the empty string are
both falsy. -/
def orFalsy (o : Option String) (d : String) : String :=
  match o with
  | none => d
  | some s => if s = "" then d else s

/-- The value a successful `createBackup` resolves with. -/
structure BackupResult where
  backupTimestamp : String
  files : List String
deriving DecidableEq, Repr

/-- Model of `ProcessManager.createBackup` (source lines 793-847).  Throws
for a name with no registry entry; otherwise copies each allow-listed
file that exists in the instance's working directory (skipping absent
ones), then the `world` directory if it exists.  No liveness check is
performed anywhere in the body. -/
def createBackup (reg : Registry) (name : String) (fs : Fs)
    (ts : String) : Except String BackupResult :=
  match rget reg name with
  | none => .error ("Process " ++ name ++ " not found")
  | some info =>
      let workingDir := orFalsy info.config.workingDir defaultWorkingDir
      let backed := filesToBackup.filter
        (fun f => fsExists fs (pathJoin workingDir f))
      let backed :=
        if fsExists fs (pathJoin workingDir "world") then backed ++ ["world/"]
        else backed
      .ok ⟨ts, backed⟩

/-- Model of the stdout/stderr `data` handlers (source lines 509-519): one
arriving chunk produces one write of `'[' + timestamp + '] ' + chunk` to
the log stream.  Characters are modelled as `List Char`. -/
def logChunkWrite (ts chunk : List Char) : List Char :=
  '[' :: ts ++ ']' :: ' ' :: chunk

/-- The full content of a log file after a run: the sequential
`logStream.write` calls append one prefixed record per arriving chunk.
Each event pairs the capture timestamp taken in the handler with the
chunk's characters. -/
def runLog : List (List Char × List Char) → List Char
  | [] => []
  | e :: rest => logChunkWrite e.1 e.2 ++ runLog rest

/-- The lines of a log file: its character stream split on newlines. -/
def logLines (content : List Char) : List (List Char) :=
  content.splitOn '\n'

/-- A log line carries a timestamp prefix when it opens with the bracketed
capture timestamp. -/
def linePrefixed (line : List Char) : Bool :=
  line.head? = some '['

/-- Whether the child's `close` event fires strictly before the stop
timeout expires. -/
def exitsWithin (b : ChildStopBehavior) (timeout : Nat) : Bool :=
  match b.closeAfter with
  | some t => t < timeout
  | none => false

/-- The launch configuration with every destructuring default spelled out
explicitly. -/
def explicitDefaultConfig : LaunchConfig :=
  ⟨some "server.jar", some "1G", some "2G", some [], some [],
   some defaultWorkingDir, some false⟩

/-- Concrete test configuration: jar named `server.jar` in working
directory `/srv`. -/
def cfg1 : LaunchConfig :=
  ⟨some "server.jar", none, none, none, none, some "/srv", none⟩

/-- Filesystem snapshot in which the jar of `cfg1` exists. -/
def fs1 : Fs := ["/srv/server.jar"]

/-- Filesystem snapshot with the jar, one allow-listed config file and
the world directory. -/
def fs2 : Fs := ["/srv/server.jar", "/srv/server.properties", "/srv/world"]

/-- Concrete descriptor for a spawned instance with pid 100. -/
def info1 : ProcessInfo := ⟨some 100, 0, cfg1, "log", "errlog"⟩

/-- Registry holding `info1` under the `minecraft-server` key. -/
def reg1 : Registry := [("minecraft-server", info1)]

end SproutSMP

namespace SproutSMP

/-- C6: for every launch config, the built argument vector is, in exactly
this order, the two heap flags, then (iff the Aikar toggle is set) the
fixed 18-flag GC tuning block, then the caller-supplied JVM arguments,
then `-jar <file> --nogui`, then the caller-supplied server arguments;
and whenever `startMinecraftServer` reaches the spawn, it passes exactly
this vector. -/
theorem buildArgs_order (cfg : LaunchConfig) :
    buildArgs (resolveConfig cfg) =
      ["-Xms" ++ (resolveConfig cfg).minMemory,
       "-Xmx" ++ (resolveConfig cfg).maxMemory]
        ++ (if (resolveConfig cfg).useAikarFlags then aikarFlags else [])
        ++ (resolveConfig cfg).jvmArgs
        ++ ["-jar", (resolveConfig cfg).jarFile, "--nogui"]
        ++ (resolveConfig cfg).serverArgs
    ∧ aikarFlags.length = 18
    ∧ ∀ reg fs now ts sp,
        (startMinecraftServer reg cfg fs now ts sp).spawnedArgs =
            some (buildArgs (resolveConfig cfg))
          ∨ (startMinecraftServer reg cfg fs now ts sp).spawnedArgs = none := by
  refine ⟨?_, rfl, ?_⟩
  · unfold buildArgs
    cases h : (resolveConfig cfg).useAikarFlags <;> simp [h]
  · intro reg fs now ts sp
    unfold startMinecraftServer
    by_cases h : fsExists fs
        (pathJoin (resolveConfig cfg).workingDir (resolveConfig cfg).jarFile) = false
    · simp [h]
    · cases sp <;> simp [h]

/-- C10: a start call with an empty config record substitutes the fixed
defaults (`server.jar`, `1G`, `2G`, empty argument lists, the default
working directory, Aikar flags off) before validation and argument
building, and behaves exactly as a call that supplied those values
explicitly. -/
theorem start_defaults (reg : Registry) (fs : Fs) (now : Nat) (ts : String)
    (sp : SpawnOutcome) :
    resolveConfig emptyConfig =
      ⟨"server.jar", "1G", "2G", [], [], defaultWorkingDir, false⟩
    ∧ (startMinecraftServer reg emptyConfig fs now ts sp).result =
        (startMinecraftServer reg explicitDefaultConfig fs now ts sp).result
    ∧ (startMinecraftServer reg emptyConfig fs now ts sp).spawnedArgs =
        (startMinecraftServer reg explicitDefaultConfig fs now ts sp).spawnedArgs := by
  refine ⟨rfl, ?_, ?_⟩ <;>
    · unfold startMinecraftServer
      have h : resolveConfig emptyConfig = resolveConfig explicitDefaultConfig := rfl
      rw [h]
      cases sp <;> by_cases hfs : fsExists fs
          (pathJoin (resolveConfig explicitDefaultConfig).workingDir
            (resolveConfig explicitDefaultConfig).jarFile) = false <;>
        simp [hfs]

/-- C1 (counterexample): an OS-level spawn failure is delivered through
the child's asynchronous error event, so at the concrete input below the
start call registers a descriptor under `minecraft-server` (with
`undefined` pid) and returns success rather than surfacing a failure —
refuting the claim that every failing spawn leaves the registry unchanged
and surfaces an error. -/
theorem start_async_failure_registers :
    (startMinecraftServer [] cfg1 fs1 0 "T" .asyncError).registry =
      [("minecraft-server",
        ⟨none, 0, cfg1, pathJoin logDir "minecraft-server-T.log",
         pathJoin logDir "minecraft-server-error-T.log"⟩)]
    ∧ (startMinecraftServer [] cfg1 fs1 0 "T" .asyncError).result =
        .ok ⟨none, 0, pathJoin logDir "minecraft-server-T.log",
          pathJoin logDir "minecraft-server-error-T.log"⟩
    ∧ rget (startMinecraftServer [] cfg1 fs1 0 "T" .asyncError).registry
        "minecraft-server" ≠ none := by
  refine ⟨rfl, rfl, ?_⟩
  decide

/-- C1 (amended): for every start call that fails synchronously — the jar
file missing from the working directory, or the spawn call throwing — no
descriptor is registered, the registry is left exactly as it was, and the
error is surfaced to the caller. -/
theorem start_sync_failure_no_descriptor (reg : Registry)
    (cfg : LaunchConfig) (fs : Fs) (now : Nat) (ts : String)
    (sp : SpawnOutcome) :
    (fsExists fs (pathJoin (resolveConfig cfg).workingDir
        (resolveConfig cfg).jarFile) = false →
      startMinecraftServer reg cfg fs now ts sp =
        ⟨reg, none, .error (.jarNotFound (pathJoin
          (resolveConfig cfg).workingDir (resolveConfig cfg).jarFile))⟩)
    ∧ (sp = .syncError →
        (startMinecraftServer reg cfg fs now ts sp).registry = reg
        ∧ ∃ e, (startMinecraftServer reg cfg fs now ts sp).result =
            .error e) := by
  constructor
  · intro h
    unfold startMinecraftServer
    simp [h]
  · intro h
    subst h
    unfold startMinecraftServer
    by_cases hfs : fsExists fs (pathJoin (resolveConfig cfg).workingDir
        (resolveConfig cfg).jarFile) = false <;> simp [hfs]

/-- C1 (witness): the amended theorem applied at concrete inputs — a
missing jar leaves an empty registry and throws, and a synchronous spawn
throw leaves the registry unchanged and throws. -/
theorem start_sync_failure_no_descriptor_witness :
    (startMinecraftServer [] cfg1 [] 0 "T" (.ok 7) =
      ⟨[], none, .error (.jarNotFound (pathJoin "/srv" "server.jar"))⟩)
    ∧ ((startMinecraftServer [] cfg1 fs1 0 "T" .syncError).registry = []
        ∧ ∃ e, (startMinecraftServer [] cfg1 fs1 0 "T" .syncError).result =
            .error e) :=
  ⟨(start_sync_failure_no_descriptor [] cfg1 [] 0 "T" (.ok 7)).1 (by decide),
   (start_sync_failure_no_descriptor [] cfg1 fs1 0 "T" .syncError).2 rfl⟩

/-- C2: whenever a descriptor exists for `minecraft-server` and the
liveness probe reports its pid alive, a start request fails with the
already-running error, spawns nothing, and leaves the registry exactly as
it was. -/
theorem apiStart_already_running (reg : Registry) (alive : Nat → Bool)
    (cfg : LaunchConfig) (serverPath : String) (fs : Fs) (now : Nat)
    (ts : String) (sp : SpawnOutcome) (info : ProcessInfo)
    (hreg : rget reg "minecraft-server" = some info)
    (halive : isProcessRunning alive info.pid = true) :
    apiServerStart reg alive cfg serverPath fs now ts sp =
      ⟨reg, none, .error .alreadyRunning⟩ := by
  unfold apiServerStart getProcessStatus
  simp [hreg, StatusPayload.running, halive]

/-- C2 (witness): the theorem applied at a concrete registry holding a
live descriptor with pid 100. -/
theorem apiStart_already_running_witness :
    rget reg1 "minecraft-server" = some info1
    ∧ isProcessRunning (fun _ => true) info1.pid = true
    ∧ apiServerStart reg1 (fun _ => true) emptyConfig "/srv" fs1 5 "T"
        (.ok 7) = ⟨reg1, none, .error .alreadyRunning⟩ :=
  ⟨by decide, rfl,
   apiStart_already_running reg1 (fun _ => true) emptyConfig "/srv" fs1 5
     "T" (.ok 7) info1 (by decide) rfl⟩

/-- Looking a key up in a filtered registry yields nothing when the
filter rejects every entry carrying that key. -/
theorem rget_filter_eq_none (reg : Registry) (name : String)
    (p : String × ProcessInfo → Bool)
    (h : ∀ e ∈ reg, e.1 = name → p e = false) :
    rget (reg.filter p) name = none := by
  induction reg with
  | nil => rfl
  | cons hd tl ih =>
      by_cases hp : p hd = true
      · have htl : ∀ e ∈ tl, e.1 = name → p e = false := by
          intro e he
          exact h e (List.mem_cons_of_mem hd he)
        by_cases hk : hd.1 = name
        · exact absurd hp (by simp [h hd (List.mem_cons_self hd tl) hk])
        · unfold rget
          rw [List.filter_cons_of_pos hp]
          cases hd with
          | mk k v =>
              rw [List.lookup_cons]
              have : (name == k) = false := by
                simp only [beq_eq_false_iff_ne]
                intro hnk
                exact hk (by simp [hnk])
              rw [this]
              exact ih htl
      · have hp0 : p hd = false := by
          cases hpv : p hd with
          | true => exact absurd hpv hp
          | false => rfl
        unfold rget
        rw [List.filter_cons_of_neg (by simp [hp0])]
        exact ih fun e he => h e (List.mem_cons_of_mem hd he)

/-- In a registry whose keys are pairwise distinct, every entry carrying
a key maps to the value `lookup` returns for that key. -/
theorem rget_nodup_unique (reg : Registry) (name : String)
    (info : ProcessInfo) (hnd : (reg.map Prod.fst).Nodup)
    (hlook : rget reg name = some info) :
    ∀ e ∈ reg, e.1 = name → e.2 = info := by
  induction reg with
  | nil => intro e he; exact absurd he (List.not_mem_nil e)
  | cons hd tl ih =>
      intro e he hkey
      cases hd with
      | mk k v =>
          have hnd1 : (k :: tl.map Prod.fst).Nodup := by simpa using hnd
          have hnd2 := List.nodup_cons.mp hnd1
          rcases List.mem_cons.mp he with he1 | he2
          · subst he1
            unfold rget at hlook
            rw [List.lookup_cons] at hlook
            have : (name == k) = true := by
              simp only [beq_iff_eq]
              exact hkey.symm
            rw [this] at hlook
            simpa using hlook
          · have hk : k ≠ name := by
              intro hkn
              apply hnd2.1
              have : e.1 ∈ tl.map Prod.fst := List.mem_map_of_mem Prod.fst he2
              rw [hkey, ← hkn] at this
              exact this
            unfold rget at hlook
            rw [List.lookup_cons] at hlook
            have : (name == k) = false := by
              simp only [beq_eq_false_iff_ne]
              exact fun hnk => hk hnk.symm
            rw [this] at hlook
            exact ih hnd2.2 hlook e he2 hkey

/-- C3 (counterexample): at a concrete registry holding a descriptor
whose pid the liveness probe reports dead, the status call reports
`running: false` but the registry after the call still contains the
entry — refuting the claim that the descriptor is removed as a side
effect of the status check. -/
theorem status_dead_pid_keeps_descriptor :
    ((getProcessStatus reg1 (fun _ => false) "minecraft-server" 5).1.running
      = false)
    ∧ (getProcessStatus reg1 (fun _ => false) "minecraft-server" 5).2 = reg1
    ∧ rget (getProcessStatus reg1 (fun _ => false) "minecraft-server" 5).2
        "minecraft-server" ≠ none := by
  refine ⟨rfl, rfl, ?_⟩
  decide

/-- C3 (amended): a status call on a name whose descriptor exists but
whose pid the liveness probe reports dead returns `running: false`, yet
performs no purge — the registry after the call is unchanged and still
contains the entry; the purge of dead entries lives in the separate
`cleanup` method, which does remove the descriptor but is never invoked
by the status path. -/
theorem status_dead_pid_no_purge (reg : Registry) (alive : Nat → Bool)
    (name : String) (now : Nat) (info : ProcessInfo)
    (hnd : (reg.map Prod.fst).Nodup)
    (hreg : rget reg name = some info)
    (hdead : isProcessRunning alive info.pid = false) :
    (getProcessStatus reg alive name now).1.running = false
    ∧ (getProcessStatus reg alive name now).2 = reg
    ∧ rget (getProcessStatus reg alive name now).2 name = some info
    ∧ rget (cleanup reg alive) name = none := by
  refine ⟨?_, ?_, ?_, ?_⟩
  · unfold getProcessStatus
    rw [hreg]
    simpa [StatusPayload.running] using hdead
  · unfold getProcessStatus
    rw [hreg]
  · unfold getProcessStatus
    rw [hreg]
    exact hreg
  · unfold cleanup
    apply rget_filter_eq_none
    intro e he hkey
    rw [rget_nodup_unique reg name info hnd hreg e he hkey]
    exact hdead

/-- C3 (witness): the amended theorem applied at the concrete one-entry
registry with a dead pid. -/
theorem status_dead_pid_no_purge_witness :
    (getProcessStatus reg1 (fun _ => false) "minecraft-server" 7).1.running
      = false
    ∧ (getProcessStatus reg1 (fun _ => false) "minecraft-server" 7).2 = reg1
    ∧ rget (getProcessStatus reg1 (fun _ => false) "minecraft-server" 7).2
        "minecraft-server" = some info1
    ∧ rget (cleanup reg1 (fun _ => false)) "minecraft-server" = none :=
  status_dead_pid_no_purge reg1 (fun _ => false) "minecraft-server" 7 info1
    (by decide) (by decide) rfl

/-- C4: a stop call on a registered instance whose process does not exit
within the caller-supplied timeout fails with the stop-timed-out error,
and the timeout expiry path sends no termination signal whatsoever — for
the `minecraft-server` name with a healthy stdin the whole call sends no
signal at all, so escalation to `kill` is left to the caller. -/
theorem stop_timeout_no_escalation (reg : Registry) (name : String)
    (timeout : Nat) (b : ChildStopBehavior) (info : ProcessInfo)
    (hreg : rget reg name = some info)
    (hnoexit : exitsWithin b timeout = false) :
    (stopProcess reg name timeout b).result =
      .error (.stopTimedOut name timeout)
    ∧ (stopProcess reg name timeout b).signalsSent.filter
        (fun s => s.1 = StopPhase.onTimeout) = []
    ∧ (b.stdinWriteOk = true → name = "minecraft-server" →
        (stopProcess reg name timeout b).signalsSent = []) := by
  unfold stopProcess
  rw [hreg]
  unfold exitsWithin at hnoexit
  cases hc : b.closeAfter with
  | none =>
      refine ⟨rfl, ?_, ?_⟩
      · by_cases hn : name = "minecraft-server" <;>
          cases hw : b.stdinWriteOk <;> simp [hn, hw]
      · intro hw hn
        simp [hn, hw]
  | some t =>
      rw [hc] at hnoexit
      have ht : ¬ t < timeout := by simpa using hnoexit
      refine ⟨by simp [ht], ?_, ?_⟩
      · by_cases hn : name = "minecraft-server" <;>
          cases hw : b.stdinWriteOk <;> simp [hn, hw, ht]
      · intro hw hn
        simp [hn, hw, ht]

/-- C4 (witness): the theorem applied with timeout 0 against a child that
would only close after 5 ms — the call deterministically times out and
sends nothing. -/
theorem stop_timeout_no_escalation_witness :
    (stopProcess reg1 "minecraft-server" 0 ⟨true, some 5, 0, none⟩).result =
      .error (.stopTimedOut "minecraft-server" 0)
    ∧ (stopProcess reg1 "minecraft-server" 0
        ⟨true, some 5, 0, none⟩).signalsSent.filter
          (fun s => s.1 = StopPhase.onTimeout) = []
    ∧ (stopProcess reg1 "minecraft-server" 0
        ⟨true, some 5, 0, none⟩).signalsSent = [] := by
  have h := stop_timeout_no_escalation reg1 "minecraft-server" 0
    ⟨true, some 5, 0, none⟩ info1 (by decide) rfl
  exact ⟨h.1, h.2.1, h.2.2 rfl rfl⟩

/-- C5 (counterexample): on Windows — a supported platform — killing the
concrete live instance delivers exactly one signal scoped to the single
pid (`taskkill /F /PID` without the `/T` tree flag), so the process
group/tree is not targeted, refuting the claim that on every supported
platform the forced signal reaches the entire process tree. -/
theorem kill_windows_single_process :
    killProcess true reg1 "minecraft-server" "SIGKILL" =
      .ok [⟨.singleProcess, "SIGKILL"⟩]
    ∧ (SigDelivery.mk .singleProcess "SIGKILL").scope ≠ .processGroup := by
  refine ⟨?_, by decide⟩
  decide

/-- C5 (amended): for a registered instance, on Unix the forced signal is
delivered to the entire process group (which exists because the child is
spawned detached there), while on Windows a SIGKILL is delivered through
`taskkill /F /PID` to the single process only; the call returns the
issued deliveries without waiting for exit. -/
theorem kill_scopes (isWindows : Bool) (reg : Registry) (name : String)
    (signal : String) (info : ProcessInfo)
    (hreg : rget reg name = some info) :
    (isWindows = false → ∀ p, info.pid = some p →
        killProcess isWindows reg name signal =
          .ok [⟨.processGroup, signal⟩])
    ∧ (isWindows = true → signal = "SIGKILL" →
        killProcess isWindows reg name signal =
          .ok [⟨.singleProcess, "SIGKILL"⟩])
    ∧ (isWindows = false → spawnDetached isWindows = true) := by
  refine ⟨?_, ?_, ?_⟩
  · intro hw p hp
    unfold killProcess
    rw [hreg]
    simp [hw, hp]
  · intro hw hs
    unfold killProcess
    rw [hreg]
    simp [hw, hs]
  · intro hw
    simp [spawnDetached, hw]

/-- C5 (witness): the amended theorem applied on Unix to the concrete
registry — the whole process group of pid 100 receives the SIGKILL. -/
theorem kill_scopes_witness :
    killProcess false reg1 "minecraft-server" "SIGKILL" =
      .ok [⟨.processGroup, "SIGKILL"⟩]
    ∧ spawnDetached false = true :=
  ⟨(kill_scopes false reg1 "minecraft-server" "SIGKILL" info1
      (by decide)).1 rfl 100 rfl,
   (kill_scopes false reg1 "minecraft-server" "SIGKILL" info1
      (by decide)).2.2 rfl⟩

/-- C7 (counterexample): with the concrete system state whose lifecycle
variable is `stopping` (not `running`) but whose registry still holds the
descriptor, the send-command call succeeds and writes the command — it
does not fail with a not-running error, refuting the claim that a
lifecycle state other than Running makes the call fail. -/
theorem sendCommand_succeeds_while_stopping :
    (sendCommandSys ⟨reg1, .stopping⟩ "minecraft-server" "list" true).result
      = .ok true
    ∧ (sendCommandSys ⟨reg1, .stopping⟩ "minecraft-server" "list"
        true).written = some "list\n"
    ∧ ServerStatus.stopping ≠ ServerStatus.running := by
  refine ⟨?_, ?_, by decide⟩ <;> decide

/-- C7 (amended): the send-command call fails with the not-found error
exactly when the descriptor is absent — the lifecycle state is never
consulted, so two states with the same registry behave identically; when
a descriptor exists, the call writes exactly the command text followed by
one newline and returns the success bit of that write. -/
theorem sendCommand_absence_only (reg : Registry) (st st2 : ServerStatus)
    (name command : String) (writeOk : Bool) :
    sendCommandSys ⟨reg, st⟩ name command writeOk =
      sendCommandSys ⟨reg, st2⟩ name command writeOk
    ∧ (rget reg name = none →
        sendCommandSys ⟨reg, st⟩ name command writeOk =
          ⟨none, .error ("Process " ++ name ++ " not found")⟩)
    ∧ (∀ info, rget reg name = some info →
        sendCommandSys ⟨reg, st⟩ name command writeOk =
          if writeOk then ⟨some (command ++ "\n"), .ok true⟩
          else ⟨none, .ok false⟩) := by
  refine ⟨rfl, ?_, ?_⟩
  · intro h
    unfold sendCommandSys sendCommand
    rw [h]
  · intro info h
    unfold sendCommandSys sendCommand
    rw [h]

/-- C7 (witness): the amended theorem applied at concrete states — an
empty registry makes the call throw regardless of a Running lifecycle
variable, and a populated registry makes it write `say hi` plus newline
even while the lifecycle variable says stopping. -/
theorem sendCommand_absence_only_witness :
    sendCommandSys ⟨[], .running⟩ "minecraft-server" "say hi" true =
      ⟨none, .error ("Process " ++ "minecraft-server" ++ " not found")⟩
    ∧ sendCommandSys ⟨reg1, .stopping⟩ "minecraft-server" "say hi" true =
        ⟨some ("say hi" ++ "\n"), .ok true⟩ :=
  ⟨(sendCommand_absence_only [] .running .running "minecraft-server"
      "say hi" true).2.1 rfl,
   by
    have h := (sendCommand_absence_only reg1 .stopping .stopping
      "minecraft-server" "say hi" true).2.2 info1 (by decide)
    simpa using h⟩

/-- C8: backup fails with the not-found error exactly when no registry
entry is known for the name; in particular it succeeds for a registered
name even when the liveness probe reports its pid dead, and on success it
lists precisely the allow-listed files that exist in the working
directory (absent ones skipped) plus the world directory marker when that
directory exists. -/
theorem createBackup_present_or_skip (reg : Registry) (name : String)
    (fs : Fs) (ts : String) :
    (rget reg name = none →
      createBackup reg name fs ts =
        .error ("Process " ++ name ++ " not found"))
    ∧ ∀ info, rget reg name = some info → ∀ alive : Nat → Bool,
        isProcessRunning alive info.pid = false →
        createBackup reg name fs ts =
          .ok ⟨ts,
            filesToBackup.filter (fun f => fsExists fs
              (pathJoin (orFalsy info.config.workingDir defaultWorkingDir) f))
            ++ (if fsExists fs (pathJoin
                  (orFalsy info.config.workingDir defaultWorkingDir) "world")
                then ["world/"] else [])⟩ := by
  constructor
  · intro h
    unfold createBackup
    rw [h]
  · intro info h alive hdead
    unfold createBackup
    rw [h]
    by_cases hw : fsExists fs
        (pathJoin (orFalsy info.config.workingDir defaultWorkingDir) "world")
        = true <;> simp [hw]

/-- C8 (witness): the theorem applied at the concrete registry whose
instance is dead — the backup still succeeds and contains exactly the one
existing allow-listed file plus the world directory. -/
theorem createBackup_present_or_skip_witness :
    createBackup [] "minecraft-server" fs2 "TS" =
      .error ("Process " ++ "minecraft-server" ++ " not found")
    ∧ createBackup reg1 "minecraft-server" fs2 "TS" =
        .ok ⟨"TS", ["server.properties", "world/"]⟩ :=
  ⟨(createBackup_present_or_skip [] "minecraft-server" fs2 "TS").1 rfl,
   by
    have h := (createBackup_present_or_skip reg1 "minecraft-server" fs2
      "TS").2 info1 (by decide) (fun _ => false) rfl
    rw [h]
    decide⟩

/-- C9 (counterexample): a single stdout chunk carrying two lines is
written as one record with one timestamp, so the persisted log contains
the nonempty line `world` with no timestamp — refuting the claim that
every persisted log line carries a capture-timestamp prefix regardless of
chunking. -/
theorem log_line_without_timestamp :
    "world".toList ∈
      logLines (runLog [("T1".toList, "hello\nworld\n".toList)])
    ∧ "world".toList ≠ []
    ∧ linePrefixed "world".toList = false := by
  refine ⟨?_, by decide, by decide⟩
  decide

/-- C9 (amended): the log sink prefixes each arriving data chunk — not
each line — with one capture timestamp: the persisted log is exactly the
concatenation of one bracket-timestamp-prefixed record per chunk, and
every persisted line is guaranteed a timestamp prefix only under the
assumption that every chunk is a single newline-terminated line with no
interior newline. -/
theorem log_prefixes_per_chunk (events : List (List Char × List Char)) :
    runLog events = (events.map (fun e => logChunkWrite e.1 e.2)).flatten
    ∧ ((∀ e ∈ events, '\n' ∉ e.1 ∧
          ∃ c, e.2 = c ++ ['\n'] ∧ '\n' ∉ c) →
        ∀ line ∈ logLines (runLog events),
          line = [] ∨ linePrefixed line = true) := by
  constructor
  · induction events with
    | nil => rfl
    | cons e rest ih => simp [runLog, ih]
  · induction events with
    | nil =>
        intro _ line hline
        left
        unfold runLog logLines at hline
        simpa using hline
    | cons e rest ih =>
        intro h line hline
        obtain ⟨ht, c, hc, hcnl⟩ := h e (List.mem_cons_self e rest)
        have hrest := fun e2 he2 => h e2 (List.mem_cons_of_mem e he2)
        have hsplit : runLog (e :: rest) =
            ('[' :: e.1 ++ ']' :: ' ' :: c) ++ '\n' :: runLog rest := by
          simp [runLog, logChunkWrite, hc]
        have hpref : ∀ x ∈ '[' :: e.1 ++ ']' :: ' ' :: c,
            ¬ (x == '\n') = true := by
          intro x hx hbeq
          have heq : x = '\n' := by simpa using hbeq
          subst heq
          rcases List.mem_cons.mp hx with h1 | h2
          · exact absurd h1 (by decide)
          · rcases List.mem_append.mp h2 with h3 | h4
            · exact ht h3
            · rcases List.mem_cons.mp h4 with h5 | h6
              · exact absurd h5 (by decide)
              · rcases List.mem_cons.mp h6 with h7 | h8
                · exact absurd h7 (by decide)
                · exact hcnl h8
        have hlines : logLines (runLog (e :: rest)) =
            ('[' :: e.1 ++ ']' :: ' ' :: c) :: logLines (runLog rest) := by
          unfold logLines
          rw [hsplit]
          exact List.splitOnP_first _ _ hpref '\n' (by decide) _
        rw [hlines] at hline
        rcases List.mem_cons.mp hline with rfl | hmem
        · right
          rfl
        · exact ih hrest line hmem

/-- C9 (witness): the amended theorem applied to two single-line chunks —
every persisted line is either empty or timestamp-prefixed. -/
theorem log_prefixes_per_chunk_witness :
    ∀ line ∈ logLines (runLog
      [("T1".toList, "hello\n".toList), ("T2".toList, "world\n".toList)]),
      line = [] ∨ linePrefixed line = true :=
  (log_prefixes_per_chunk
    [("T1".toList, "hello\n".toList), ("T2".toList, "world\n".toList)]).2
    (by
      intro e he
      simp only [List.mem_cons, List.not_mem_nil, or_false] at he
      rcases he with rfl | rfl
      · exact ⟨by decide, "hello".toList, by decide, by decide⟩
      · exact ⟨by decide, "world".toList, by decide, by decide⟩)

end SproutSMP
